import Mathlib

/-!
Shallow embedding of `paper_query.py`: a query helper for the Semantic
Scholar paper API, a seed-paper object, and a snowballing expansion.
Network outcomes, the filesystem and the observable side effects (requests,
sleeps, log prints) are made explicit so the control flow of `_get` and its
callers can be reasoned about.
-/

/-- A JSON value, as produced by decoding a response body. -/
inductive Json where
  | null : Json
  | bool (b : Bool) : Json
  | num (n : Int) : Json
  | str (s : String) : Json
  | arr (elems : List Json) : Json
  | obj (fields : List (String × Json)) : Json

/-- Python repr of a JSON value, used when a value is interpolated inside a
container rendering. String quoting is simplified (no escaping). -/
def Json.pyRepr : Json → String
  | .null => "None"
  | .bool true => "True"
  | .bool false => "False"
  | .num n => toString n
  | .str s => "\x27" ++ s ++ "\x27"
  | .arr elems =>
      "[" ++ String.intercalate ", " (elems.attach.map (fun e => Json.pyRepr e.1)) ++ "]"
  | .obj fields =>
      "\x7b" ++ String.intercalate ", "
        (fields.attach.map (fun kv => "\x27" ++ kv.1.1 ++ "\x27: " ++ Json.pyRepr kv.1.2))
        ++ "\x7d"
decreasing_by
  · have h := List.sizeOf_lt_of_mem e.2
    simp only [Json.arr.sizeOf_spec]
    omega
  · have h := List.sizeOf_lt_of_mem kv.2
    have h2 : sizeOf kv.1.2 < sizeOf kv.1 := by
      cases kv.1 with
      | mk a b =>
        simp only [Prod.mk.sizeOf_spec]
        omega
    simp only [Json.obj.sizeOf_spec]
    omega

/-- Python str() of a JSON value, as an f-string renders it: a string renders
as itself, any other value by its repr. -/
def Json.pyStr : Json → String
  | .str s => s
  | j => j.pyRepr

/-- Lookup in an association list of JSON object fields. -/
def lookupKV : List (String × Json) → String → Option Json
  | [], _ => none
  | (k, v) :: rest, key => if k = key then some v else lookupKV rest key

/-- Python subscript `j[key]` on a decoded value: returns the field value when
`j` is a dict carrying the key; any other case (indexing None, a list, a
string, a missing key) raises, modelled as `none`. -/
def Json.look : Json → String → Option Json
  | .obj fields, key => lookupKV fields key
  | _, _ => none

/-- Content of a persisted artifact file. `jsonFile j` is a file holding the
serialization of `j`; `emptyFile` is a file that was opened for writing and
truncated but received no content (the dump failed before writing). -/
inductive FileContent where
  | emptyFile : FileContent
  | jsonFile (j : Json) : FileContent

/-- Parsing a persisted artifact back from its structured format: a file
holding the serialization of `j` parses to `j`; a truncated empty file fails
to parse. -/
def parseFile : FileContent → Option Json
  | .emptyFile => none
  | .jsonFile j => some j

/-- The filesystem: an association from paths to file contents. -/
def FS := List (String × FileContent)

/-- Write (create or overwrite) the file at path `p`. -/
def fsWrite (fs : FS) (p : String) (c : FileContent) : FS :=
  (p, c) :: (fs : List (String × FileContent)).filter (fun e => ¬ (e.1 = p))

/-- Read the file at path `p`, `none` when no file exists there. -/
def fsRead (fs : FS) (p : String) : Option FileContent :=
  ((fs : List (String × FileContent)).find? (fun e => e.1 = p)).map (fun e => e.2)

/-- Outcome of one `session.get` network call: either the call raises (a
connection error or the 30-unit timeout), or a response arrives carrying a
status code and the result of decoding its body (`none` when `.json()`
raises a decode error; decoding is deterministic, so repeated `.json()`
calls on one response agree). -/
inductive GetOutcome where
  | raise : GetOutcome
  | response (status : Nat) (decoded : Option Json) : GetOutcome

/-- Observable events of a `_get` call: the synthetic call-entry marker with
its url and save path, the printed query line, the network request attempt,
the 3.5-unit sleep, and the printed exception message of the except block. -/
inductive Event where
  | queried (url : String) (savePath : Option String) : Event
  | printed (s : String) : Event
  | requested (url : String) : Event
  | slept : Event
  | logged : Event

/-- Static environment of a run: the network oracle giving each url its
outcome, and which paths can be opened for writing (a path in a missing
output directory cannot). -/
structure Env where
  net : String → GetOutcome
  canOpen : String → Bool

/-- Result of a `_get` call: the filesystem afterwards, the trace of events,
and the returned value (`none` models returning Python None from the except
block). -/
structure GetRes where
  fs : FS
  trace : List Event
  ret : Option Json

/-- `SemanticScholarQueryHelper._get`, explicit in the network outcome.
Flow of the source: print the query line, perform the get; if a save path is
supplied (and truthy, i.e. nonempty), open it for writing — which truncates
or creates the file — then dump the decoded body; then sleep 3.5; then
return the decoded body. Any exception along the way jumps to the except
block, which prints the error and returns None. -/
def sgetO (fs : FS) (canOpen : String → Bool) (outcome : GetOutcome)
    (url : String) (savePath : Option String) : GetRes :=
  let entry : List Event := [.queried url savePath, .printed ("querying " ++ url)]
  match outcome with
  | .raise => ⟨fs, entry ++ [.requested url, .logged], none⟩
  | .response _status decoded =>
    let afterReq := entry ++ [.requested url]
    match savePath with
    | some p =>
      if p = "" then
        -- an empty save path is falsy: the save branch is skipped
        match decoded with
        | some j => ⟨fs, afterReq ++ [.slept], some j⟩
        | none => ⟨fs, afterReq ++ [.slept, .logged], none⟩
      else
        if canOpen p then
          match decoded with
          | some j => ⟨fsWrite fs p (.jsonFile j), afterReq ++ [.slept], some j⟩
          | none =>
            -- open truncated the file, then the decode inside the dump raised
            ⟨fsWrite fs p .emptyFile, afterReq ++ [.logged], none⟩
        else
          -- the open itself raised: nothing written, straight to except
          ⟨fs, afterReq ++ [.logged], none⟩
    | none =>
      match decoded with
      | some j => ⟨fs, afterReq ++ [.slept], some j⟩
      | none =>
        -- the sleep precedes the returning decode, so it already happened
        ⟨fs, afterReq ++ [.slept, .logged], none⟩

/-- `_get` against the environment: one network attempt at the url. -/
def sget (env : Env) (fs : FS) (url : String) (savePath : Option String) : GetRes :=
  sgetO fs env.canOpen (env.net url) url savePath

def KEYWORDS : List String := ["software", "engineering", "gender", "diversity"]

def FIELDS_OF_STUDY : String := "Computer Science"

def QUERY_INFO_BY_KEYWORDS : List String :=
  ["url", "title", "abstract", "authors", "year", "publicationTypes", "venue"]

def QUERY_INFO_ABOUT_A_PAPER : List String :=
  ["url", "title", "abstract", "authors", "year", "publicationTypes", "citations",
   "references", "citations.fieldsOfStudy"]

def SEEDING_PAPER_DIR : String := "seed papers"

def SNOWBALLING_PAPER_DIR : String := "snowballing papers"

def apiBase : String := "http://api.semanticscholar.org/graph/v1/paper"

/-- The search url built by `get_top_n_paper_ids`. -/
def searchUrl (n : Nat) (keywords : List String) (field_of_study : String) : String :=
  apiBase ++ "/search?query=" ++ String.intercalate "+" keywords
    ++ "&offset=10&limit=" ++ toString n ++ "&fieldsOfStudy=" ++ field_of_study
    ++ "&fields=" ++ String.intercalate "," QUERY_INFO_BY_KEYWORDS

/-- The single-paper url built by `get_metadata`. -/
def metaUrl (paper_id : String) (query_parameters : List String) : String :=
  apiBase ++ "/" ++ paper_id ++ "?fields=" ++ String.intercalate "," query_parameters

/-- `SemanticScholarQueryHelper.get_metadata`. -/
def get_metadata (env : Env) (fs : FS) (paper_id : String)
    (query_parameters : List String) (save_path : Option String) : GetRes :=
  sget env fs (metaUrl paper_id query_parameters) save_path

/-- The append loop over a list of records: collect each record's paperId;
a record that is not a dict with that key raises, modelled as `none`. -/
def mapIds : List Json → Option (List Json)
  | [] => some []
  | p :: ps =>
    match p.look "paperId" with
    | none => none
    | some i =>
      match mapIds ps with
      | none => none
      | some is => some (i :: is)

/-- Python `for paper in data: ids.append(paper[paperId-key])` over the value
found under the data key: a list iterates its elements; an empty string or
empty dict iterates nothing; any other value (or a nonempty string or dict,
whose elements are not subscriptable dicts) raises. -/
def extractIdList : Json → Option (List Json)
  | .arr ps => mapIds ps
  | .str s => if s = "" then some [] else none
  | .obj [] => some []
  | .obj (_ :: _) => none
  | _ => none

/-- Result of `get_top_n_paper_ids`: filesystem, trace, and the id list
(`none` models the unhandled fault when the response is missing or lacks the
expected shape). -/
structure SearchRes where
  fs : FS
  trace : List Event
  ids : Option (List Json)

/-- `SemanticScholarQueryHelper.get_top_n_paper_ids`. -/
def get_top_n_paper_ids (env : Env) (fs : FS) (n : Nat) (keywords : List String)
    (field_of_study : String) (save_path : Option String) : SearchRes :=
  let r := sget env fs (searchUrl n keywords field_of_study) save_path
  match r.ret with
  | none => ⟨r.fs, r.trace, none⟩
  | some j =>
    match j.look "data" with
    | none => ⟨r.fs, r.trace, none⟩
    | some d => ⟨r.fs, r.trace, extractIdList d⟩

/-- Artifact path for a seed paper keyed by its identifier. -/
def seedPath (id : String) : String :=
  "./output/" ++ SEEDING_PAPER_DIR ++ "/" ++ id ++ ".json"

/-- Artifact path for a snowballing paper keyed by its identifier. -/
def snowPath (id : String) : String :=
  "./output/" ++ SNOWBALLING_PAPER_DIR ++ "/" ++ id ++ ".json"

/-- The state of a `SeedPaper` object after `__init__`: its identifier and
the extracted citation and reference identifier lists. -/
structure SeedPaper where
  id : String
  citations : List Json
  references : List Json

/-- Result of constructing a `SeedPaper` (`none` models the unhandled fault
when the fetch failed or the response lacks the expected shape). -/
structure SeedRes where
  fs : FS
  trace : List Event
  paper : Option SeedPaper

/-- `SeedPaper.__init__`: one full-field `get_metadata` fetch saved under the
seed-papers path, then extraction of the citation and reference paperIds. -/
def mkSeedPaper (env : Env) (fs : FS) (id : String) : SeedRes :=
  let r := get_metadata env fs id QUERY_INFO_ABOUT_A_PAPER (some (seedPath id))
  match r.ret with
  | none => ⟨r.fs, r.trace, none⟩
  | some md =>
    match md.look "citations" with
    | none => ⟨r.fs, r.trace, none⟩
    | some cs =>
      match extractIdList cs with
      | none => ⟨r.fs, r.trace, none⟩
      | some citations =>
        match md.look "references" with
        | none => ⟨r.fs, r.trace, none⟩
        | some rs =>
          match extractIdList rs with
          | none => ⟨r.fs, r.trace, none⟩
          | some references => ⟨r.fs, r.trace, some ⟨id, citations, references⟩⟩

/-- One iteration of a snowballing loop: a full-field `get_metadata` fetch
for the identifier, saved under the snowballing-papers path keyed by it; the
return value is discarded. -/
def snowStep (env : Env) (acc : FS × List Event) (id : Json) : FS × List Event :=
  let r := get_metadata env acc.1 (Json.pyStr id) QUERY_INFO_ABOUT_A_PAPER
    (some (snowPath (Json.pyStr id)))
  (r.fs, acc.2 ++ r.trace)

/-- `SeedPaper.snowballing`: fetch every reference (backward), then every
citation (forward). -/
def snowballing (env : Env) (p : SeedPaper) (fs : FS) : FS × List Event :=
  p.citations.foldl (snowStep env) (p.references.foldl (snowStep env) (fs, []))

/-- `snowballing` as a method call on the object: the method body contains no
assignment to self, so the object state it leaves behind is the input state
unchanged. -/
def snowballingObj (env : Env) (p : SeedPaper) (fs : FS) :
    SeedPaper × FS × List Event :=
  (p, snowballing env p fs)

/-- Repeated invocations of `snowballing` on the same object, threading the
object state and the filesystem. -/
def runSnowballs (env : Env) : Nat → SeedPaper → FS → SeedPaper × FS
  | 0, p, fs => (p, fs)
  | Nat.succ k, p, fs =>
    let r := snowballingObj env p fs
    runSnowballs env k r.1 r.2.1

/-- Whether the 3.5-unit sleep occurs in a trace. -/
def sleptIn (tr : List Event) : Bool :=
  tr.any (fun e => match e with | .slept => true | _ => false)

/-- Whether an exception was printed in a trace. -/
def loggedIn (tr : List Event) : Bool :=
  tr.any (fun e => match e with | .logged => true | _ => false)

/-- Number of network request attempts in a trace. -/
def requestCount (tr : List Event) : Nat :=
  tr.countP (fun e => match e with | .requested _ => true | _ => false)

/-- The `_get` calls recorded in a trace, as url and save path pairs, in
order. -/
def queriedCalls (tr : List Event) : List (String × Option String) :=
  tr.filterMap (fun e => match e with | .queried u sp => some (u, sp) | _ => none)

/-- Mocked search response with two records. -/
def mockSearchJson : Json :=
  .obj [("data", .arr [.obj [("paperId", .str "A1")], .obj [("paperId", .str "B2")]])]

/-- Environment whose every request answers with the mocked search
response. -/
def mockSearchEnv : Env :=
  ⟨fun _ => .response 200 (some mockSearchJson), fun _ => true⟩

/-- Search response holding an empty-string paperId and two records. -/
def cexSearchJson : Json :=
  .obj [("data", .arr [.obj [("paperId", .str "")], .obj [("paperId", .str "B2")]])]

/-- Environment whose every request answers with `cexSearchJson`. -/
def cexSearchEnv : Env :=
  ⟨fun _ => .response 200 (some cexSearchJson), fun _ => true⟩

/-- Mocked single-paper metadata response with one citation and one
reference. -/
def mockSeedJson : Json :=
  .obj [("citations", .arr [.obj [("paperId", .str "C1")]]),
        ("references", .arr [.obj [("paperId", .str "R1")]])]

/-- Environment whose every request answers with the mocked metadata. -/
def mockSeedEnv : Env :=
  ⟨fun _ => .response 200 (some mockSeedJson), fun _ => true⟩

/-- Environment in which every network request raises. -/
def envRaise : Env := ⟨fun _ => .raise, fun _ => true⟩

/-- Environment in which every response arrives but its body fails to
decode. -/
def envBadBody : Env := ⟨fun _ => .response 200 none, fun _ => true⟩

/-- Environment in which responses arrive but no save path can be opened
(the output directories are missing). -/
def envNoDir : Env :=
  ⟨fun _ => .response 200 (some mockSeedJson), fun _ => false⟩

/-- Reading back a freshly written file yields what was written. -/
theorem fsRead_fsWrite_self (fs : FS) (p : String) (c : FileContent) :
    fsRead (fsWrite fs p c) p = some c := by
  simp [fsRead, fsWrite]

/-- The append loop preserves the length of the record list it walks. -/
theorem mapIds_length (l : List Json) : ∀ r, mapIds l = some r → r.length = l.length := by
  induction l with
  | nil =>
    intro r h
    simp [mapIds] at h
    simp [h]
  | cons p ps ih =>
    intro r h
    simp only [mapIds] at h
    cases hp : p.look "paperId" with
    | none => rw [hp] at h; exact absurd h (by simp)
    | some i =>
      rw [hp] at h
      cases hm : mapIds ps with
      | none => rw [hm] at h; exact absurd h (by simp)
      | some is =>
        rw [hm] at h
        simp only [Option.some.injEq] at h
        subst h
        simp [ih is hm]

/-- `queriedCalls` distributes over trace concatenation. -/
theorem queriedCalls_append (a b : List Event) :
    queriedCalls (a ++ b) = queriedCalls a ++ queriedCalls b := by
  simp [queriedCalls]

/-- Every `_get` call records exactly one call marker: its url and save
path. -/
theorem queriedCalls_sgetO (fs : FS) (co : String → Bool) (o : GetOutcome)
    (url : String) (sp : Option String) :
    queriedCalls (sgetO fs co o url sp).trace = [(url, sp)] := by
  cases o with
  | raise => rfl
  | response st d =>
    cases sp with
    | none => cases d <;> rfl
    | some p =>
      by_cases hp : p = ""
      · subst hp; cases d <;> rfl
      · by_cases hcp : co p = true
        · cases d <;> simp [sgetO, hp, hcp, queriedCalls]
        · cases d <;> simp [sgetO, hp, hcp, queriedCalls]

/-- When a `_get` call with a nonempty save path returns a value, the
filesystem afterwards holds exactly that value, freshly written at the save
path. -/
theorem sgetO_ret_some (fs : FS) (co : String → Bool) (o : GetOutcome)
    (url : String) (p : String) (j : Json) (hp : ¬ p = "")
    (h : (sgetO fs co o url (some p)).ret = some j) :
    (sgetO fs co o url (some p)).fs = fsWrite fs p (FileContent.jsonFile j) := by
  cases o with
  | raise => exact absurd h (by simp [sgetO])
  | response st d =>
    by_cases hcp : co p = true
    · cases d with
      | none => simp [sgetO, hp, hcp] at h
      | some j2 =>
        have h2 : j2 = j := by
          simp only [sgetO] at h
          rw [if_neg hp, if_pos hcp] at h
          simpa using h
        subst h2
        simp only [sgetO]
        rw [if_neg hp, if_pos hcp]
    · cases d <;> simp [sgetO, hp, hcp] at h

/-- Claim C7: when the network request raises (a connection error or the
30-unit timeout), the error is absorbed inside `_get`: the exception is
printed, the call returns a no-value result, exactly one request attempt was
made (no retry), and the filesystem is untouched. -/
theorem C7_transport_absorbed (env : Env) (fs : FS) (url : String)
    (sp : Option String) (h : env.net url = GetOutcome.raise) :
    (sget env fs url sp).ret = none ∧
    loggedIn (sget env fs url sp).trace = true ∧
    requestCount (sget env fs url sp).trace = 1 ∧
    (sget env fs url sp).fs = fs := by
  unfold sget
  rw [h]
  exact ⟨rfl, rfl, rfl, rfl⟩

/-- Witness for C7 at a concrete raising environment. -/
theorem C7_transport_absorbed_witness :
    (sget envRaise [] "u" (some "f.json")).ret = none ∧
    loggedIn (sget envRaise [] "u" (some "f.json")).trace = true ∧
    requestCount (sget envRaise [] "u" (some "f.json")).trace = 1 ∧
    (sget envRaise [] "u" (some "f.json")).fs = [] :=
  C7_transport_absorbed envRaise [] "u" (some "f.json") rfl

/-- Claim C10: when a response arrives but the save file cannot be opened
(for instance the output directory is missing), the same except block
handles it: the call returns a no-value result, the filesystem is untouched,
the 3.5-unit sleep is skipped, the error is printed — and the returned value
is the same as that of a transport failure, so the caller cannot tell the
two apart. -/
theorem C10_save_failure_like_transport (fs : FS) (co : String → Bool)
    (url : String) (st : Nat) (d : Option Json) (p : String)
    (hp : ¬ p = "") (hcp : co p = false) :
    (sgetO fs co (GetOutcome.response st d) url (some p)).ret = none ∧
    (sgetO fs co (GetOutcome.response st d) url (some p)).fs = fs ∧
    sleptIn (sgetO fs co (GetOutcome.response st d) url (some p)).trace = false ∧
    loggedIn (sgetO fs co (GetOutcome.response st d) url (some p)).trace = true ∧
    (sgetO fs co (GetOutcome.response st d) url (some p)).ret
      = (sgetO fs co GetOutcome.raise url (some p)).ret := by
  cases d <;> simp [sgetO, hp, hcp, sleptIn, loggedIn]

/-- Witness for C10 in a concrete environment with unopenable save paths. -/
theorem C10_save_failure_like_transport_witness :
    (sgetO [] (fun _ => false) (GetOutcome.response 200 (some mockSeedJson)) "u"
      (some "./output/f.json")).ret = none ∧
    (sgetO [] (fun _ => false) (GetOutcome.response 200 (some mockSeedJson)) "u"
      (some "./output/f.json")).fs = [] ∧
    sleptIn (sgetO [] (fun _ => false) (GetOutcome.response 200 (some mockSeedJson)) "u"
      (some "./output/f.json")).trace = false ∧
    loggedIn (sgetO [] (fun _ => false) (GetOutcome.response 200 (some mockSeedJson)) "u"
      (some "./output/f.json")).trace = true ∧
    (sgetO [] (fun _ => false) (GetOutcome.response 200 (some mockSeedJson)) "u"
      (some "./output/f.json")).ret
      = (sgetO [] (fun _ => false) GetOutcome.raise "u" (some "./output/f.json")).ret :=
  C10_save_failure_like_transport [] (fun _ => false) "u" 200 (some mockSeedJson)
    "./output/f.json" (by decide) rfl

/-- Claim C9: the status code of a received response is never inspected:
`_get` behaves identically for any two status codes on the same body, and a
404-status response with a decodable body is decoded, persisted and returned
exactly as a 200 would be, with the sleep performed. -/
theorem C9_status_ignored (fs : FS) (co : String → Bool) (url : String) :
    (∀ st st2 d sp, sgetO fs co (GetOutcome.response st d) url sp
        = sgetO fs co (GetOutcome.response st2 d) url sp) ∧
    (∀ j p, ¬ p = "" → co p = true →
      (sgetO fs co (GetOutcome.response 404 (some j)) url (some p)).ret = some j ∧
      fsRead (sgetO fs co (GetOutcome.response 404 (some j)) url (some p)).fs p
        = some (FileContent.jsonFile j) ∧
      sleptIn (sgetO fs co (GetOutcome.response 404 (some j)) url (some p)).trace
        = true) := by
  constructor
  · intro st st2 d sp
    rfl
  · intro j p hp hcp
    simp [sgetO, hp, hcp, sleptIn, fsRead_fsWrite_self]

/-- Witness for C9: a 404 response with a decodable body, a writable save
path. -/
theorem C9_status_ignored_witness :
    (sgetO [] (fun _ => true) (GetOutcome.response 404 (some mockSeedJson)) "u"
      (some "f.json")).ret = some mockSeedJson ∧
    fsRead (sgetO [] (fun _ => true) (GetOutcome.response 404 (some mockSeedJson)) "u"
      (some "f.json")).fs "f.json" = some (FileContent.jsonFile mockSeedJson) ∧
    sleptIn (sgetO [] (fun _ => true) (GetOutcome.response 404 (some mockSeedJson)) "u"
      (some "f.json")).trace = true :=
  (C9_status_ignored [] (fun _ => true) "u").2 mockSeedJson "f.json" (by decide) rfl

/-- Claim C1 counterexample: the 3.5-unit delay is not unconditional. A call
whose body fails to decode during the save dump has received a response and
fails, yet performs no sleep; a call whose request raises performs no sleep
either. -/
theorem C1_counterexample :
    (sget envBadBody [] "u" (some "out.json")).ret = none ∧
    sleptIn (sget envBadBody [] "u" (some "out.json")).trace = false ∧
    sleptIn (sget envRaise [] "u" none).trace = false :=
  ⟨rfl, rfl, rfl⟩

/-- Claim C1 (amended): the delay fires exactly on the paths that reach the
sleep statement: never when the request raises; always when a response
arrives and no (truthy) save path was given — even if the final decode then
fails, since the sleep precedes it; and with a nonempty save path, exactly
when the file opens and the body decodes. -/
theorem C1_sleep_condition (fs : FS) (co : String → Bool) (url : String) :
    (∀ sp, sleptIn (sgetO fs co GetOutcome.raise url sp).trace = false) ∧
    (∀ st d, sleptIn (sgetO fs co (GetOutcome.response st d) url none).trace = true) ∧
    (∀ st d, sleptIn (sgetO fs co (GetOutcome.response st d) url (some "")).trace
        = true) ∧
    (∀ st d p, ¬ p = "" →
      sleptIn (sgetO fs co (GetOutcome.response st d) url (some p)).trace
        = (co p && d.isSome)) := by
  refine ⟨fun sp => rfl, fun st d => ?_, fun st d => ?_, fun st d p hp => ?_⟩
  · cases d <;> rfl
  · cases d <;> rfl
  · cases hcp : co p <;> cases d <;> simp [sgetO, hp, hcp, sleptIn]

/-- Witness for C1 (amended): with a nonempty save path and a body that
fails to decode, the sleep is skipped. -/
theorem C1_sleep_condition_witness :
    sleptIn (sgetO [] (fun _ => true) (GetOutcome.response 200 none) "u"
      (some "out.json")).trace = false := by
  have h := (C1_sleep_condition [] (fun _ => true) "u").2.2.2 200 none "out.json"
    (by decide)
  simpa using h

/-- Claim C2 counterexample: a call that fails by a failed decode of the
response body, made with a save path, does create a file at that path — the
open-for-writing truncates or creates the file before the decode inside the
dump raises, leaving an empty artifact behind. -/
theorem C2_counterexample :
    (sget envBadBody [] "u" (some "out.json")).ret = none ∧
    fsRead ([] : FS) "out.json" = none ∧
    fsRead (sget envBadBody [] "u" (some "out.json")).fs "out.json"
      = some FileContent.emptyFile :=
  ⟨rfl, rfl, rfl⟩

/-- Claim C2 (amended): on a network error or timeout, and when the save
file cannot be opened, no file is created or modified; but on a failed
decode with an openable nonempty save path, the file is created or truncated
to empty before the decode raises; the JSON content itself is written only
after a successful decode. -/
theorem C2_write_discipline (fs : FS) (co : String → Bool) (url : String) :
    (∀ sp, (sgetO fs co GetOutcome.raise url sp).fs = fs) ∧
    (∀ st d p, co p = false →
      (sgetO fs co (GetOutcome.response st d) url (some p)).fs = fs) ∧
    (∀ st p, ¬ p = "" → co p = true →
      (sgetO fs co (GetOutcome.response st none) url (some p)).fs
        = fsWrite fs p FileContent.emptyFile) ∧
    (∀ st j p, ¬ p = "" → co p = true →
      (sgetO fs co (GetOutcome.response st (some j)) url (some p)).fs
        = fsWrite fs p (FileContent.jsonFile j)) := by
  refine ⟨fun sp => rfl, fun st d p hcp => ?_, fun st p hp hcp => ?_,
    fun st j p hp hcp => ?_⟩
  · by_cases hp : p = ""
    · subst hp; cases d <;> rfl
    · cases d <;> simp [sgetO, hp, hcp]
  · simp [sgetO, hp, hcp]
  · simp [sgetO, hp, hcp]

/-- Witness for C2 (amended): the decode-failure branch creates the empty
artifact at the save path. -/
theorem C2_write_discipline_witness :
    (sgetO [] (fun _ => true) (GetOutcome.response 200 none) "u"
      (some "out.json")).fs = fsWrite [] "out.json" FileContent.emptyFile :=
  (C2_write_discipline [] (fun _ => true) "u").2.2.1 200 "out.json" (by decide) rfl

/-- Claim C6: a call with a (truthy) save path that succeeds leaves at that
path a file whose content parses back to exactly the returned record. -/
theorem C6_roundtrip (env : Env) (fs : FS) (url : String) (p : String)
    (j : Json) (hp : ¬ p = "")
    (h : (sget env fs url (some p)).ret = some j) :
    fsRead (sget env fs url (some p)).fs p = some (FileContent.jsonFile j) ∧
    parseFile (FileContent.jsonFile j) = some j := by
  constructor
  · unfold sget at h ⊢
    rw [sgetO_ret_some fs env.canOpen (env.net url) url p j hp h]
    exact fsRead_fsWrite_self fs p (FileContent.jsonFile j)
  · rfl

/-- Witness for C6: a successful call against the mocked metadata
environment persists the returned record at the save path. -/
theorem C6_roundtrip_witness :
    fsRead (sget mockSeedEnv [] "u" (some "f.json")).fs "f.json"
      = some (FileContent.jsonFile mockSeedJson) ∧
    parseFile (FileContent.jsonFile mockSeedJson) = some mockSeedJson :=
  C6_roundtrip mockSeedEnv [] "u" "f.json" mockSeedJson (by decide) rfl

/-- Claim C3 counterexample: `get_top_n_paper_ids` neither truncates the
returned list to `n` nor checks the identifiers: with `n = 1` and a response
whose data list holds two records, the first with an empty-string paperId,
it returns both identifiers — length exceeding `n` and containing the empty
string. -/
theorem C3_counterexample :
    (get_top_n_paper_ids cexSearchEnv [] 1 ["k"] "f" none).ids
      = some [Json.str "", Json.str "B2"] ∧
    ¬ (([Json.str "", Json.str "B2"] : List Json).length ≤ 1) ∧
    Json.str "" ∈ ([Json.str "", Json.str "B2"] : List Json) :=
  ⟨rfl, by decide, List.mem_cons_self _ _⟩

/-- Claim C3 (amended): a successful search call returns exactly the paperId
of every record of the response's data list, in service order, with length
equal to the data list's length — hence at most `n` exactly when the service
honors the requested limit, and non-empty strings exactly when the service
supplies them. -/
theorem C3_search_extraction (env : Env) (fs : FS) (n : Nat)
    (keywords : List String) (field_of_study : String) (sp : Option String)
    (j : Json) (ps : List Json) (ids : List Json)
    (hret : (sget env fs (searchUrl n keywords field_of_study) sp).ret = some j)
    (hdata : j.look "data" = some (Json.arr ps))
    (hmap : mapIds ps = some ids) :
    (get_top_n_paper_ids env fs n keywords field_of_study sp).ids = some ids ∧
    ids.length = ps.length := by
  constructor
  · simp [get_top_n_paper_ids, hret, hdata, extractIdList, hmap]
  · exact mapIds_length ps ids hmap

/-- Witness for C3 (amended), which is also the end-to-end mocked scenario:
with the mocked search response and n = 2 the call returns the identifiers
A1 and B2, in order. -/
theorem C3_search_extraction_witness :
    (get_top_n_paper_ids mockSearchEnv [] 2 KEYWORDS FIELDS_OF_STUDY none).ids
      = some [Json.str "A1", Json.str "B2"] ∧
    ([Json.str "A1", Json.str "B2"] : List Json).length
      = ([Json.obj [("paperId", Json.str "A1")],
          Json.obj [("paperId", Json.str "B2")]] : List Json).length :=
  C3_search_extraction mockSearchEnv [] 2 KEYWORDS FIELDS_OF_STUDY none
    mockSearchJson
    [Json.obj [("paperId", Json.str "A1")], Json.obj [("paperId", Json.str "B2")]]
    [Json.str "A1", Json.str "B2"] rfl rfl rfl

/-- Claim C4: a successfully constructed seed paper's citations view is the
list of paperId fields of the fetched response's citations list and its
references view that of the references list — same lengths, same order,
duplicates preserved (the extraction is a one-to-one positional map). -/
theorem C4_seed_extraction (env : Env) (fs : FS) (id : String) (md : Json)
    (rawCs rawRs cs rs : List Json)
    (hret : (get_metadata env fs id QUERY_INFO_ABOUT_A_PAPER
      (some (seedPath id))).ret = some md)
    (hcs : md.look "citations" = some (Json.arr rawCs))
    (hmc : mapIds rawCs = some cs)
    (hrs : md.look "references" = some (Json.arr rawRs))
    (hmr : mapIds rawRs = some rs) :
    (mkSeedPaper env fs id).paper = some ⟨id, cs, rs⟩ ∧
    cs.length = rawCs.length ∧ rs.length = rawRs.length := by
  refine ⟨?_, mapIds_length rawCs cs hmc, mapIds_length rawRs rs hmr⟩
  simp [mkSeedPaper, hret, hcs, extractIdList, hmc, hrs, hmr]

/-- Witness for C4 at the mocked metadata environment: the seed paper built
for id A1 has citations C1 and references R1. -/
theorem C4_seed_extraction_witness :
    (mkSeedPaper mockSeedEnv [] "A1").paper
      = some ⟨"A1", [Json.str "C1"], [Json.str "R1"]⟩ ∧
    ([Json.str "C1"] : List Json).length
      = ([Json.obj [("paperId", Json.str "C1")]] : List Json).length ∧
    ([Json.str "R1"] : List Json).length
      = ([Json.obj [("paperId", Json.str "R1")]] : List Json).length :=
  C4_seed_extraction mockSeedEnv [] "A1" mockSeedJson
    [Json.obj [("paperId", Json.str "C1")]]
    [Json.obj [("paperId", Json.str "R1")]]
    [Json.str "C1"] [Json.str "R1"] rfl rfl rfl rfl rfl

/-- A snowballing loop over a list of identifiers appends, to whatever trace
was accumulated, one call marker per identifier: the full-field single-paper
url and the snowballing-papers save path keyed by that identifier. -/
theorem foldl_snowStep_trace (env : Env) (l : List Json) : ∀ fs tr,
    queriedCalls (l.foldl (snowStep env) (fs, tr)).2
      = queriedCalls tr ++ l.map (fun id =>
          (metaUrl (Json.pyStr id) QUERY_INFO_ABOUT_A_PAPER,
           some (snowPath (Json.pyStr id)))) := by
  induction l with
  | nil => intro fs tr; simp
  | cons x xs ih =>
    intro fs tr
    simp only [List.foldl_cons, List.map_cons]
    rw [ih]
    simp [snowStep, queriedCalls_append, get_metadata, sget, queriedCalls_sgetO]

/-- Claim C5: snowballing a seed paper issues exactly one `_get` call per
reference identifier, in list order, followed by one per citation
identifier, in list order — `len references + len citations` calls in all —
each at the full-field single-paper url for that identifier and each saving
to the snowballing-papers path keyed by it; the fetched values are discarded
(the operation yields only the filesystem and the trace). -/
theorem C5_snowballing_calls (env : Env) (p : SeedPaper) (fs : FS) :
    queriedCalls (snowballing env p fs).2
      = (p.references ++ p.citations).map (fun id =>
          (metaUrl (Json.pyStr id) QUERY_INFO_ABOUT_A_PAPER,
           some (snowPath (Json.pyStr id)))) ∧
    (queriedCalls (snowballing env p fs).2).length
      = p.references.length + p.citations.length := by
  have h : queriedCalls (snowballing env p fs).2
      = (p.references ++ p.citations).map (fun id =>
          (metaUrl (Json.pyStr id) QUERY_INFO_ABOUT_A_PAPER,
           some (snowPath (Json.pyStr id)))) := by
    unfold snowballing
    cases hin : p.references.foldl (snowStep env) (fs, []) with
    | mk fs2 tr2 =>
      have h1 := foldl_snowStep_trace env p.references fs []
      rw [hin] at h1
      have h2 := foldl_snowStep_trace env p.citations fs2 tr2
      simp only [List.map_append]
      rw [h2, h1]
      simp [queriedCalls]
  exact ⟨h, by rw [h]; simp⟩

/-- Claim C8: a seed paper object is immutable after construction — the
snowballing method assigns nothing to the object, so however many times it
is invoked, the object state (identifier, citations list, references list)
is unchanged and the views return the same sequences throughout. -/
theorem C8_seed_immutable (env : Env) (n : Nat) (p : SeedPaper) (fs : FS) :
    (runSnowballs env n p fs).1 = p ∧
    (runSnowballs env n p fs).1.citations = p.citations ∧
    (runSnowballs env n p fs).1.references = p.references ∧
    (runSnowballs env n p fs).1.id = p.id := by
  have h : ∀ m q fs2, (runSnowballs env m q fs2).1 = q := by
    intro m
    induction m with
    | zero => intro q fs2; rfl
    | succ k ih =>
      intro q fs2
      simp only [runSnowballs, snowballingObj]
      exact ih q (snowballing env q fs2).1
  exact ⟨h n p fs, by rw [h], by rw [h], by rw [h]⟩
